import Mathlib

/-!
Verification of the `PlaceHolderDecorator` class of `src/placeholder-decorator.ts`
(CodeAceJumper). The class is embedded shallowly: its mutable fields become a
`DecoratorState` record, the host editor API (`window.createTextEditorDecorationType`,
`editor.setDecorations`, `TextEditorDecorationType.dispose`) becomes an explicit
`Host` log of creations, binding calls and disposals, and the SVG built through
`xmlbuilder` becomes an explicit element tree plus a serializer.
-/

namespace CodeAceJumper

/-- Modelled from the spec: `src/config/config.ts` is not in the sources; the
`placeholder` style sub-record follows §3 of the spec (width, height, colors,
font family/weight/size, text anchor offsets, upper/lower-case flag) and the
fields read by `placeholder-decorator.ts`. -/
structure PlaceholderStyle where
  width : Nat
  height : Nat
  backgroundColor : String
  color : String
  fontFamily : String
  fontWeight : String
  fontSize : Nat
  textPosX : Nat
  textPosY : Nat
  upperCase : Bool
deriving Repr, DecidableEq

/-- Modelled from the spec: the `highlight` style sub-record (per-character
width, height, background color, viewport offset). -/
structure HighlightStyle where
  width : Nat
  height : Nat
  backgroundColor : String
  offsetX : Nat
  offsetY : Nat
deriving Repr, DecidableEq

/-- Modelled from the spec: `Config` carries the two style sub-records and the
set of valid character codes (`characters`), as read by the decorator. -/
structure Config where
  characters : List String
  placeholder : PlaceholderStyle
  highlight : HighlightStyle
deriving Repr, DecidableEq

/-- Modelled from the spec: `src/models/placeholder.ts` is not in the sources;
a `PlaceholderTarget` is a zero-based line, zero-based character column and the
character code assigned to that location (§3), matching the three fields the
decorator reads (`line`, `character`, `placeholder`). -/
structure Placeholder where
  line : Nat
  character : Nat
  placeholder : String
deriving Repr, DecidableEq

/-! ### The SVG element tree built through xmlbuilder -/

/-- An XML node: an element with attributes and children, or a text node. -/
inductive XmlNode where
  | elem (name : String) (attrs : List (String × String)) (children : List XmlNode)
  | text (s : String)

/-- xmlbuilder escapes `&`, `<`, `>` in text content. -/
def escapeXmlText (s : String) : String :=
  s.foldl (fun acc c =>
    acc ++ (if c = '&' then "&amp;"
            else if c = '<' then "&lt;"
            else if c = '>' then "&gt;"
            else String.singleton c)) ""

/-- xmlbuilder escapes `&`, `<`, `>`, `"` in attribute values. -/
def escapeXmlAttr (s : String) : String :=
  s.foldl (fun acc c =>
    acc ++ (if c = '&' then "&amp;"
            else if c = '<' then "&lt;"
            else if c = '>' then "&gt;"
            else if c = '"' then "&quot;"
            else String.singleton c)) ""

def serializeAttrs (attrs : List (String × String)) : String :=
  attrs.foldl (fun acc kv => acc ++ " " ++ kv.1 ++ "=\"" ++ escapeXmlAttr kv.2 ++ "\"") ""

mutual

/-- Compact (`pretty: false`) serialization of a node, as `root.end` emits it:
childless elements self-close, others wrap their serialized children. -/
def serializeNode : XmlNode → String
  | .text s => escapeXmlText s
  | .elem nm attrs [] => "<" ++ nm ++ serializeAttrs attrs ++ "/>"
  | .elem nm attrs (c :: cs) =>
      "<" ++ nm ++ serializeAttrs attrs ++ ">" ++ serializeNodes (c :: cs)
        ++ "</" ++ nm ++ ">"

def serializeNodes : List XmlNode → String
  | [] => ""
  | c :: cs => serializeNode c ++ serializeNodes cs

end

/-- The element name of a node (text nodes have none). -/
def nodeName : XmlNode → Option String
  | .elem nm _ _ => some nm
  | .text _ => none

/-- The children of a node. -/
def nodeChildren : XmlNode → List XmlNode
  | .elem _ _ cs => cs
  | .text _ => []

/-- Look up an attribute on an element node. -/
def attrOf (n : XmlNode) (key : String) : Option String :=
  match n with
  | .text _ => none
  | .elem _ attrs _ => (attrs.find? (fun kv => kv.1 = key)).map Prod.snd

/-! ### Glyph builders (`buildUriForPlaceholder`, `buildUriForHighlight`) -/

/-- The SVG tree built by `buildUriForPlaceholder` (lines 185-217): a headless
`svg` root with `xmlns`/`viewBox`/`width`/`height`; a `rect` filling the canvas
with corner radii 2 in the configured background color; a `text` element with
the configured font attributes and anchor, whose content is the code in upper
case when `upperCase` is set and lower case otherwise. -/
def placeholderSvg (cfg : Config) (code : String) : XmlNode :=
  let p := cfg.placeholder
  .elem "svg"
    [("xmlns", "http://www.w3.org/2000/svg"),
     ("viewBox", "0 0 " ++ toString p.width ++ " " ++ toString p.height),
     ("width", toString p.width),
     ("height", toString p.height)]
    [ .elem "rect"
        [("width", toString p.width),
         ("height", toString p.height),
         ("rx", "2"),
         ("ry", "2"),
         ("style", "fill: " ++ p.backgroundColor)] [],
      .elem "text"
        [("font-weight", p.fontWeight),
         ("font-family", p.fontFamily),
         ("font-size", toString p.fontSize ++ "px"),
         ("fill", p.color),
         ("x", toString p.textPosX),
         ("y", toString p.textPosY)]
        [ .text (if p.upperCase then code.toUpper else code.toLower) ] ]

/-- `buildUriForPlaceholder` (lines 185-224): serialize the SVG without
pretty-printing and wrap it in a UTF-8 `data:` URI. -/
def buildUriForPlaceholder (cfg : Config) (code : String) : String :=
  "data:image/svg+xml;utf8," ++ serializeNode (placeholderSvg cfg code)

/-- The SVG tree built by `buildUriForHighlight` (lines 226-246): canvas width
`highlight.width * characterCount`, height `highlight.height`, viewBox origin
offset by `(offsetX, offsetY)`, one `rect` with radii 2 filling the canvas in
the highlight background color, and no text element. -/
def highlightSvg (cfg : Config) (characterCount : Nat) : XmlNode :=
  let width := cfg.highlight.width * characterCount
  let height := cfg.highlight.height
  let offsetX := cfg.highlight.offsetX
  let offsetY := cfg.highlight.offsetY
  .elem "svg"
    [("xmlns", "http://www.w3.org/2000/svg"),
     ("viewBox", toString offsetX ++ " " ++ toString offsetY ++ " "
        ++ toString width ++ " " ++ toString height),
     ("width", toString width),
     ("height", toString height)]
    [ .elem "rect"
        [("width", toString width),
         ("height", toString height),
         ("rx", "2"),
         ("ry", "2"),
         ("style", "fill: " ++ cfg.highlight.backgroundColor)] [] ]

/-- `buildUriForHighlight` (lines 226-253). -/
def buildUriForHighlight (cfg : Config) (characterCount : Nat) : String :=
  "data:image/svg+xml;utf8," ++ serializeNode (highlightSvg cfg characterCount)

/-! ### JavaScript-object association lists for the two caches -/

/-- Look up a key in a JavaScript-object-like association list. -/
def objLookup {κ ν : Type} [DecidableEq κ] : List (κ × ν) → κ → Option ν
  | [], _ => none
  | (k0, v0) :: rest, k => if k0 = k then some v0 else objLookup rest k

/-- `acc[k] = v` on a JavaScript object: overwrite the existing entry for `k`
in place, otherwise append a new entry (insertion order preserved). -/
def objInsert {κ ν : Type} [DecidableEq κ] : List (κ × ν) → κ → ν → List (κ × ν)
  | [], k, v => [(k, v)]
  | (k0, v0) :: rest, k, v =>
      if k0 = k then (k0, v) :: rest else (k0, v0) :: objInsert rest k v

/-! ### Host editor model -/

/-- A zero-based range in the buffer, as `new Range(l1, c1, l2, c2)`. -/
structure Range where
  startLine : Nat
  startChar : Nat
  endLine : Nat
  endChar : Nat
deriving Repr, DecidableEq

/-- `Number.MAX_VALUE`, the largest finite IEEE-754 double, is the exact
integer `(2^53 - 1) * 2^971 = 2^1024 - 2^971`. -/
def numberMaxValue : Nat := 2 ^ 1024 - 2 ^ 971

/-- One entry of the `options` array passed to `setDecorations` by the `add*`
methods: a range plus the dark/light `contentIconPath` (absent on cache miss,
mirroring an `undefined` index access). -/
structure DecorationOptions where
  range : Range
  darkIcon : Option String
  lightIcon : Option String
deriving Repr, DecidableEq

/-- The `after` block passed to `createTextEditorDecorationType` by the `add*`
methods: the three CSS strings built from the placeholder width/height. -/
structure AfterOpts where
  margin : String
  height : String
  width : String
deriving Repr, DecidableEq

/-- Creation options of a decoration type: the `add*` footprint or the dim
style. -/
inductive CreateOpts where
  | after (a : AfterOpts)
  | textDecoration (s : String)
deriving Repr, DecidableEq

/-- The argument of a `setDecorations` call: decoration options (`add*`,
clears) or plain ranges (`dimEditor`). -/
inductive SetPayload where
  | opts (l : List DecorationOptions)
  | ranges (l : List Range)
deriving Repr, DecidableEq

/-- The host editor API, as an event log: decoration types are identified by
the order of their creation; `setCalls` records every `setDecorations` call in
order; `disposed` records every `dispose` call in order. -/
structure Host where
  nextId : Nat
  created : List (Nat × CreateOpts)
  setCalls : List (Nat × SetPayload)
  disposed : List Nat
deriving Repr, DecidableEq

def Host.createType (h : Host) (o : CreateOpts) : Nat × Host :=
  (h.nextId,
   { h with nextId := h.nextId + 1, created := h.created ++ [(h.nextId, o)] })

def Host.setDecorations (h : Host) (id : Nat) (p : SetPayload) : Host :=
  { h with setCalls := h.setCalls ++ [(id, p)] }

def Host.dispose (h : Host) (id : Nat) : Host :=
  { h with disposed := h.disposed ++ [id] }

def initialHost : Host := { nextId := 0, created := [], setCalls := [], disposed := [] }

/-- The `TextEditor`: the decorator only reads `editor.document.lineCount`. -/
structure Editor where
  lineCount : Nat
deriving Repr, DecidableEq

/-! ### The decorator state and its methods -/

/-- The mutable fields of `PlaceHolderDecorator` (lines 18-23). `config` is
`none` before the first `refreshConfig` (an uninitialized TS field); the caches
are association lists from code / width to data URI; `dim` is the optional dim
decoration type; `decorations` and `highlights` are the tracked type lists. -/
structure DecoratorState where
  config : Option Config
  placeholderCache : List (String × String)
  highlightCache : List (Nat × String)
  dim : Option Nat
  decorations : List Nat
  highlights : List Nat
deriving Repr, DecidableEq

/-- A fresh `PlaceHolderDecorator`. -/
def initialState : DecoratorState :=
  { config := none, placeholderCache := [], highlightCache := [],
    dim := none, decorations := [], highlights := [] }

/-- `updateCache` (lines 167-183): rebuild the placeholder cache by reducing
`config.characters` into a fresh object, and the highlight cache by reducing
the widths `[1, ..., 10]` (`[...Array(10)].map((_, i) => i + 1)`) into a fresh
object. -/
def updateCache (cfg : Config) : List (String × String) × List (Nat × String) :=
  (cfg.characters.foldl (fun acc c => objInsert acc c (buildUriForPlaceholder cfg c)) [],
   ((List.range 10).map (· + 1)).foldl
     (fun acc w => objInsert acc w (buildUriForHighlight cfg w)) [])

/-- `refreshConfig` (lines 25-29): store the config, then `updateCache`. -/
def refreshConfig (s : DecoratorState) (cfg : Config) : DecoratorState :=
  { s with config := some cfg,
           placeholderCache := (updateCache cfg).1,
           highlightCache := (updateCache cfg).2 }

/-- The `after` footprint built by both `add*` methods (lines 35-41 and 80-86)
from the placeholder width/height: `margin: 0 0 0 ${1 * -width}px`,
`height: ${height}px`, `width: ${1 * width}px`. -/
def afterOptsFor (p : PlaceholderStyle) : CreateOpts :=
  .after { margin := "0 0 0 " ++ toString (-(p.width : Int)) ++ "px",
           height := toString p.height ++ "px",
           width := toString p.width ++ "px" }

/-- One element of the `options` array of `addDecorations` (lines 43-65): a
zero-width range at `(line, character + 1)` and the cached URI for the target's
code under both themes. -/
def mkDecorationOption (cache : List (String × String)) (ph : Placeholder) :
    DecorationOptions :=
  { range := ⟨ph.line, ph.character + 1, ph.line, ph.character + 1⟩,
    darkIcon := objLookup cache ph.placeholder,
    lightIcon := objLookup cache ph.placeholder }

/-- One element of the `options` array of `addHighlights` (lines 88-110): a
zero-width range at `(line, character + 2)` and the cached URI for
`highlightCount` under both themes. -/
def mkHighlightOption (cache : List (Nat × String)) (highlightCount : Nat)
    (ph : Placeholder) : DecorationOptions :=
  { range := ⟨ph.line, ph.character + 2, ph.line, ph.character + 2⟩,
    darkIcon := objLookup cache highlightCount,
    lightIcon := objLookup cache highlightCount }

/-- `addDecorations` (lines 31-70). Reading `this.config.placeholder` on an
uninitialized `config` throws a `TypeError`, modelled as `Except.error`;
otherwise create the decoration type, build the options, push the type onto
`decorations` and call `setDecorations`. -/
def addDecorations (s : DecoratorState) (h : Host) (_editor : Editor)
    (placeholders : List Placeholder) : Except String (DecoratorState × Host) :=
  match s.config with
  | none => .error "TypeError: cannot read properties of undefined"
  | some cfg =>
      let c := h.createType (afterOptsFor cfg.placeholder)
      let options := placeholders.map (mkDecorationOption s.placeholderCache)
      .ok ({ s with decorations := s.decorations ++ [c.1] },
           c.2.setDecorations c.1 (.opts options))

/-- `addHighlights` (lines 72-115): same shape as `addDecorations` — its
footprint is also built from `config.placeholder` — but anchored one column
further right, binding every target to the cache entry for `highlightCount`,
and tracked on `highlights`. -/
def addHighlights (s : DecoratorState) (h : Host) (_editor : Editor)
    (placeholders : List Placeholder) (highlightCount : Nat) :
    Except String (DecoratorState × Host) :=
  match s.config with
  | none => .error "TypeError: cannot read properties of undefined"
  | some cfg =>
      let c := h.createType (afterOptsFor cfg.placeholder)
      let options := placeholders.map (mkHighlightOption s.highlightCache highlightCount)
      .ok ({ s with highlights := s.highlights ++ [c.1] },
           c.2.setDecorations c.1 (.opts options))

/-- `undimEditor` (lines 159-165): if a dim type is tracked, clear its
bindings, dispose it and untrack it; otherwise do nothing. -/
def undimEditor (s : DecoratorState) (h : Host) : DecoratorState × Host :=
  match s.dim with
  | none => (s, h)
  | some id => ({ s with dim := none }, (h.setDecorations id (.opts [])).dispose id)

/-- `dimEditor` (lines 117-139): first `undimEditor`, then create the dim
decoration type, then bind it over the given ranges — or, when the list is
absent (`undefined`) or empty, over the single range from `(0, 0)` to
`(lineCount, Number.MAX_VALUE)`. -/
def dimEditor (s : DecoratorState) (h : Host) (editor : Editor)
    (ranges : Option (List Range)) : DecoratorState × Host :=
  let u := undimEditor s h
  let c := u.2.createType (.textDecoration "none; filter: grayscale(1);")
  let toAddRanges :=
    match ranges with
    | some (r :: rs) => r :: rs
    | _ => [⟨0, 0, editor.lineCount, numberMaxValue⟩]
  ({ u.1 with dim := some c.1 }, c.2.setDecorations c.1 (.ranges toAddRanges))

/-- `removeDecorations` (lines 141-148): for each tracked decoration type, in
order, clear its bindings and dispose it; then empty the list. -/
def removeDecorations (s : DecoratorState) (h : Host) : DecoratorState × Host :=
  ({ s with decorations := [] },
   s.decorations.foldl (fun acc id => (acc.setDecorations id (.opts [])).dispose id) h)

/-- `removeHighlights` (lines 150-157): same over `highlights`. -/
def removeHighlights (s : DecoratorState) (h : Host) : DecoratorState × Host :=
  ({ s with highlights := [] },
   s.highlights.foldl (fun acc id => (acc.setDecorations id (.opts [])).dispose id) h)

/-- `n` successive `addDecorations` calls with the same arguments. -/
def addDecorationsN : Nat → DecoratorState → Host → Editor → List Placeholder →
    Except String (DecoratorState × Host)
  | 0, s, h, _, _ => .ok (s, h)
  | n + 1, s, h, e, phs =>
      match addDecorations s h e phs with
      | .error m => .error m
      | .ok sh => addDecorationsN n sh.1 sh.2 e phs

/-- `n` successive `addHighlights` calls with the same arguments. -/
def addHighlightsN : Nat → DecoratorState → Host → Editor → List Placeholder → Nat →
    Except String (DecoratorState × Host)
  | 0, s, h, _, _, _ => .ok (s, h)
  | n + 1, s, h, e, phs, cnt =>
      match addHighlights s h e phs cnt with
      | .error m => .error m
      | .ok sh => addHighlightsN n sh.1 sh.2 e phs cnt

/-- Whether an `Except` result is a success. -/
def exceptOk {ε α : Type} : Except ε α → Bool
  | .ok _ => true
  | .error _ => false

/-! ### Association-list lemmas -/

/-- The keys of an object, in insertion order. -/
def keysOf {κ ν : Type} (l : List (κ × ν)) : List κ := l.map Prod.fst

theorem objLookup_objInsert_self {κ ν : Type} [DecidableEq κ]
    (l : List (κ × ν)) (k : κ) (v : ν) : objLookup (objInsert l k v) k = some v := by
  induction l with
  | nil => simp [objInsert, objLookup]
  | cons kv rest ih =>
    obtain ⟨k0, v0⟩ := kv
    by_cases h : k0 = k
    · simp [objInsert, h, objLookup]
    · simp [objInsert, h, objLookup, ih]

theorem objLookup_objInsert_ne {κ ν : Type} [DecidableEq κ]
    (l : List (κ × ν)) (k k' : κ) (v : ν) (h : k ≠ k') :
    objLookup (objInsert l k v) k' = objLookup l k' := by
  induction l with
  | nil => simp [objInsert, objLookup, h]
  | cons kv rest ih =>
    obtain ⟨k0, v0⟩ := kv
    by_cases hk : k0 = k
    · subst hk
      simp [objInsert, objLookup, h]
    · simp [objInsert, hk, objLookup, ih]

theorem objLookup_foldl_insert {κ ν : Type} [DecidableEq κ] (f : κ → ν)
    (keys : List κ) (init : List (κ × ν)) (k : κ) :
    objLookup (keys.foldl (fun acc x => objInsert acc x (f x)) init) k
      = if k ∈ keys then some (f k) else objLookup init k := by
  induction keys generalizing init with
  | nil => simp
  | cons k0 rest ih =>
    rw [List.foldl_cons, ih]
    by_cases hm : k ∈ rest
    · simp [hm]
    · by_cases he : k = k0
      · subst he
        simp [hm, objLookup_objInsert_self]
      · simp [hm, he, objLookup_objInsert_ne _ k0 k _ (Ne.symm he)]

theorem keysOf_objInsert {κ ν : Type} [DecidableEq κ] (l : List (κ × ν)) (k : κ) (v : ν) :
    keysOf (objInsert l k v)
      = if k ∈ keysOf l then keysOf l else keysOf l ++ [k] := by
  induction l with
  | nil => simp [objInsert, keysOf]
  | cons kv rest ih =>
    obtain ⟨k0, v0⟩ := kv
    by_cases hk : k0 = k
    · subst hk
      simp [objInsert, keysOf]
    · have hne : ¬ k = k0 := fun he => hk he.symm
      by_cases hm : k ∈ keysOf rest
      · simp only [keysOf] at ih hm
        simp [objInsert, hk, keysOf, hne, hm, ih]
      · simp only [keysOf] at ih hm
        simp [objInsert, hk, keysOf, hne, hm, ih]

theorem nodup_keysOf_objInsert {κ ν : Type} [DecidableEq κ]
    (l : List (κ × ν)) (k : κ) (v : ν) (h : (keysOf l).Nodup) :
    (keysOf (objInsert l k v)).Nodup := by
  rw [keysOf_objInsert]
  by_cases hm : k ∈ keysOf l
  · simpa [hm] using h
  · simp only [hm, if_false]
    rw [List.nodup_append]
    refine ⟨h, List.nodup_singleton k, ?_⟩
    intro a ha hb
    rw [List.mem_singleton] at hb
    subst hb
    exact hm ha

theorem nodup_keysOf_foldl_insert {κ ν : Type} [DecidableEq κ] (f : κ → ν)
    (keys : List κ) (init : List (κ × ν)) (h : (keysOf init).Nodup) :
    (keysOf (keys.foldl (fun acc x => objInsert acc x (f x)) init)).Nodup := by
  induction keys generalizing init with
  | nil => simpa using h
  | cons k0 rest ih =>
    rw [List.foldl_cons]
    exact ih _ (nodup_keysOf_objInsert _ _ _ h)

theorem objLookup_eq_some_of_mem {κ ν : Type} [DecidableEq κ]
    (l : List (κ × ν)) (k : κ) (v : ν) (h : (keysOf l).Nodup) (hm : (k, v) ∈ l) :
    objLookup l k = some v := by
  induction l with
  | nil => cases hm
  | cons kv rest ih =>
    obtain ⟨k0, v0⟩ := kv
    rw [List.mem_cons] at hm
    rcases hm with hm | hm
    · rw [Prod.mk.injEq] at hm
      obtain ⟨h1, h2⟩ := hm
      subst h1
      subst h2
      simp [objLookup]
    · have hk0 : k0 ∉ keysOf rest := by
        simp only [keysOf, List.map_cons, List.nodup_cons] at h
        exact h.1
      have hne : k0 ≠ k := by
        intro he
        subst he
        exact hk0 (List.mem_map_of_mem Prod.fst hm)
      have hrest : (keysOf rest).Nodup := by
        simp only [keysOf, List.map_cons, List.nodup_cons] at h
        exact h.2
      simp [objLookup, hne, ih hrest hm]

theorem mem_range_map_succ (w : Nat) :
    (w ∈ (List.range 10).map (· + 1)) ↔ (1 ≤ w ∧ w ≤ 10) := by
  simp only [List.mem_map, List.mem_range]
  constructor
  · rintro ⟨a, ha, rfl⟩
    omega
  · rintro ⟨h1, h2⟩
    exact ⟨w - 1, by omega, by omega⟩

/-! ### Concrete fixtures used by witnesses -/

def sampleConfig : Config :=
  { characters := ["a", "s", "d"],
    placeholder :=
      { width := 12, height := 14, backgroundColor := "yellow", color := "black",
        fontFamily := "Consolas", fontWeight := "normal", fontSize := 12,
        textPosX := 2, textPosY := 12, upperCase := false },
    highlight :=
      { width := 6, height := 14, backgroundColor := "green",
        offsetX := 0, offsetY := 0 } }

/-- Same placeholder sub-record as `sampleConfig`, different highlight
sub-record. -/
def sampleConfig2 : Config :=
  { sampleConfig with
    highlight :=
      { width := 9, height := 3, backgroundColor := "red",
        offsetX := 1, offsetY := 2 } }

def sampleEditor : Editor := { lineCount := 5 }

def samplePlaceholder : Placeholder := { line := 3, character := 5, placeholder := "s" }

/-- A state right after the first `refreshConfig(sampleConfig)`. -/
def sampleState : DecoratorState := refreshConfig initialState sampleConfig

/-! ### Shared helper lemmas about the rebuilt caches and the add methods -/

theorem placeholderCache_lookup (s : DecoratorState) (cfg : Config) (c : String) :
    objLookup (refreshConfig s cfg).placeholderCache c =
      if c ∈ cfg.characters then some (buildUriForPlaceholder cfg c) else none := by
  have hpc : (refreshConfig s cfg).placeholderCache
      = cfg.characters.foldl
          (fun acc c => objInsert acc c (buildUriForPlaceholder cfg c)) [] := rfl
  rw [hpc, objLookup_foldl_insert]
  simp [objLookup]

theorem highlightCache_lookup (s : DecoratorState) (cfg : Config) (w : Nat) :
    objLookup (refreshConfig s cfg).highlightCache w =
      if 1 ≤ w ∧ w ≤ 10 then some (buildUriForHighlight cfg w) else none := by
  have hhc : (refreshConfig s cfg).highlightCache
      = ((List.range 10).map (· + 1)).foldl
          (fun acc w => objInsert acc w (buildUriForHighlight cfg w)) [] := rfl
  rw [hhc, objLookup_foldl_insert]
  rw [if_congr (mem_range_map_succ w) rfl rfl]
  simp [objLookup]

theorem placeholderCache_nodup (s : DecoratorState) (cfg : Config) :
    (keysOf (refreshConfig s cfg).placeholderCache).Nodup :=
  nodup_keysOf_foldl_insert _ _ _ (by simp [keysOf])

theorem highlightCache_nodup (s : DecoratorState) (cfg : Config) :
    (keysOf (refreshConfig s cfg).highlightCache).Nodup :=
  nodup_keysOf_foldl_insert _ _ _ (by simp [keysOf])

/-- The exact result of a successful `addDecorations` call. -/
theorem addDecorations_eq (s : DecoratorState) (h : Host) (e : Editor)
    (phs : List Placeholder) (cfg : Config) (hc : s.config = some cfg) :
    addDecorations s h e phs
      = .ok ({ s with decorations := s.decorations ++ [h.nextId] },
             { h with nextId := h.nextId + 1,
                      created := h.created ++ [(h.nextId, afterOptsFor cfg.placeholder)],
                      setCalls := h.setCalls ++
                        [(h.nextId,
                          .opts (phs.map (mkDecorationOption s.placeholderCache)))] }) := by
  simp [addDecorations, hc, Host.createType, Host.setDecorations]

/-- The exact result of a successful `addHighlights` call. -/
theorem addHighlights_eq (s : DecoratorState) (h : Host) (e : Editor)
    (phs : List Placeholder) (cnt : Nat) (cfg : Config) (hc : s.config = some cfg) :
    addHighlights s h e phs cnt
      = .ok ({ s with highlights := s.highlights ++ [h.nextId] },
             { h with nextId := h.nextId + 1,
                      created := h.created ++ [(h.nextId, afterOptsFor cfg.placeholder)],
                      setCalls := h.setCalls ++
                        [(h.nextId,
                          .opts (phs.map (mkHighlightOption s.highlightCache cnt)))] }) := by
  simp [addHighlights, hc, Host.createType, Host.setDecorations]

/-! ### Claims -/

/-- C1: after `refreshConfig(config)` the placeholder cache maps exactly the
codes of `config.characters`, each to the glyph URI built from that config, and
the highlight cache maps exactly the widths 1..10, each to the bar URI built
from that config; cache keys are unique, and every entry is derived from that
config, so no entry of a previously active configuration survives and every
subsequent `add*` call reads caches determined solely by the most recently
completed `refreshConfig`. -/
theorem refreshConfig_rebuilds_caches (s : DecoratorState) (cfg : Config) :
    (refreshConfig s cfg).config = some cfg ∧
    (∀ c : String, objLookup (refreshConfig s cfg).placeholderCache c =
        if c ∈ cfg.characters then some (buildUriForPlaceholder cfg c) else none) ∧
    (∀ w : Nat, objLookup (refreshConfig s cfg).highlightCache w =
        if 1 ≤ w ∧ w ≤ 10 then some (buildUriForHighlight cfg w) else none) ∧
    (keysOf (refreshConfig s cfg).placeholderCache).Nodup ∧
    (keysOf (refreshConfig s cfg).highlightCache).Nodup ∧
    (∀ kv ∈ (refreshConfig s cfg).placeholderCache,
        kv.1 ∈ cfg.characters ∧ kv.2 = buildUriForPlaceholder cfg kv.1) ∧
    (∀ kv ∈ (refreshConfig s cfg).highlightCache,
        1 ≤ kv.1 ∧ kv.1 ≤ 10 ∧ kv.2 = buildUriForHighlight cfg kv.1) := by
  refine ⟨rfl, placeholderCache_lookup s cfg, highlightCache_lookup s cfg,
    placeholderCache_nodup s cfg, highlightCache_nodup s cfg, ?_, ?_⟩
  · rintro ⟨k, v⟩ hkv
    have hm : objLookup (refreshConfig s cfg).placeholderCache k = some v :=
      objLookup_eq_some_of_mem _ _ _ (placeholderCache_nodup s cfg) hkv
    rw [placeholderCache_lookup s cfg k] at hm
    by_cases hc : k ∈ cfg.characters
    · rw [if_pos hc] at hm
      exact ⟨hc, (Option.some.inj hm).symm⟩
    · rw [if_neg hc] at hm
      simp at hm
  · rintro ⟨k, v⟩ hkv
    have hm : objLookup (refreshConfig s cfg).highlightCache k = some v :=
      objLookup_eq_some_of_mem _ _ _ (highlightCache_nodup s cfg) hkv
    rw [highlightCache_lookup s cfg k] at hm
    by_cases hc : 1 ≤ k ∧ k ≤ 10
    · rw [if_pos hc] at hm
      exact ⟨hc.1, hc.2, (Option.some.inj hm).symm⟩
    · rw [if_neg hc] at hm
      simp at hm

/-- Witness for C1: after `refreshConfig(sampleConfig)` the caches resolve the
code `s` and the width 3, reject the code `z` and the width 0, and the stored
config is the new one. -/
theorem refreshConfig_rebuilds_caches_witness :
    sampleState.config = some sampleConfig ∧
    objLookup sampleState.placeholderCache "s"
      = some (buildUriForPlaceholder sampleConfig "s") ∧
    objLookup sampleState.placeholderCache "z" = none ∧
    objLookup sampleState.highlightCache 3
      = some (buildUriForHighlight sampleConfig 3) ∧
    objLookup sampleState.highlightCache 0 = none := by
  have h := refreshConfig_rebuilds_caches initialState sampleConfig
  refine ⟨h.1, ?_, ?_, ?_, ?_⟩
  · have hx := h.2.1 "s"
    rw [if_pos (by decide)] at hx
    exact hx
  · have hx := h.2.1 "z"
    rw [if_neg (by decide)] at hx
    exact hx
  · have hx := h.2.2.1 3
    rw [if_pos (by decide)] at hx
    exact hx
  · have hx := h.2.2.1 0
    rw [if_neg (by decide)] at hx
    exact hx

/-- C2: with a configuration in place, `addDecorations` binds every target at
the zero-width anchor `(line, character + 1)` and `addHighlights` binds every
target at the zero-width anchor `(line, character + 2)`, one column further
right; both push exactly one `setDecorations` call with those options. -/
theorem add_anchor_positions (s : DecoratorState) (h : Host) (e : Editor)
    (phs : List Placeholder) (cnt : Nat) (cfg : Config) (hc : s.config = some cfg) :
    (∃ s2 h2, addDecorations s h e phs = .ok (s2, h2) ∧
        h2.setCalls = h.setCalls ++
          [(h.nextId, .opts (phs.map (mkDecorationOption s.placeholderCache)))]) ∧
    (∀ p : Placeholder, (mkDecorationOption s.placeholderCache p).range
        = ⟨p.line, p.character + 1, p.line, p.character + 1⟩) ∧
    (∃ s2 h2, addHighlights s h e phs cnt = .ok (s2, h2) ∧
        h2.setCalls = h.setCalls ++
          [(h.nextId, .opts (phs.map (mkHighlightOption s.highlightCache cnt)))]) ∧
    (∀ p : Placeholder, (mkHighlightOption s.highlightCache cnt p).range
        = ⟨p.line, p.character + 2, p.line, p.character + 2⟩) := by
  exact ⟨⟨_, _, addDecorations_eq s h e phs cfg hc, rfl⟩, fun p => rfl,
         ⟨_, _, addHighlights_eq s h e phs cnt cfg hc, rfl⟩, fun p => rfl⟩

/-- Witness for C2 at a concrete target `(line 3, character 5)`: the
placeholder anchor is `(3, 6)` and the highlight anchor is `(3, 7)`. -/
theorem add_anchor_positions_witness :
    (mkDecorationOption sampleState.placeholderCache samplePlaceholder).range
        = ⟨3, 6, 3, 6⟩ ∧
    (mkHighlightOption sampleState.highlightCache 2 samplePlaceholder).range
        = ⟨3, 7, 3, 7⟩ :=
  ⟨(add_anchor_positions sampleState initialHost sampleEditor [samplePlaceholder] 2
      sampleConfig rfl).2.1 samplePlaceholder,
   (add_anchor_positions sampleState initialHost sampleEditor [samplePlaceholder] 2
      sampleConfig rfl).2.2.2 samplePlaceholder⟩

/-- C3: a cache miss is fail-soft: after a refresh, a target whose code is not
among the configured characters gets absent icon bindings while every target
with a configured code is still bound to its cached glyph; `addHighlights`
with count 0 or 11 produces absent bindings for every target of the batch,
while a count in 1..10 binds every target of the batch to the identical single
cached resource; in every case the add call succeeds without error. -/
theorem cache_miss_fail_soft (s0 : DecoratorState) (cfg : Config) (h : Host)
    (e : Editor) (phs : List Placeholder) (cnt : Nat) :
    (∀ p : Placeholder, p.placeholder ∉ cfg.characters →
        (mkDecorationOption (refreshConfig s0 cfg).placeholderCache p).darkIcon = none ∧
        (mkDecorationOption (refreshConfig s0 cfg).placeholderCache p).lightIcon = none) ∧
    (∀ p : Placeholder, p.placeholder ∈ cfg.characters →
        (mkDecorationOption (refreshConfig s0 cfg).placeholderCache p).darkIcon
            = some (buildUriForPlaceholder cfg p.placeholder) ∧
        (mkDecorationOption (refreshConfig s0 cfg).placeholderCache p).lightIcon
            = some (buildUriForPlaceholder cfg p.placeholder)) ∧
    exceptOk (addDecorations (refreshConfig s0 cfg) h e phs) = true ∧
    ((cnt = 0 ∨ cnt = 11) → ∀ p : Placeholder,
        (mkHighlightOption (refreshConfig s0 cfg).highlightCache cnt p).darkIcon = none ∧
        (mkHighlightOption (refreshConfig s0 cfg).highlightCache cnt p).lightIcon = none) ∧
    (1 ≤ cnt → cnt ≤ 10 → ∀ p : Placeholder,
        (mkHighlightOption (refreshConfig s0 cfg).highlightCache cnt p).darkIcon
            = some (buildUriForHighlight cfg cnt) ∧
        (mkHighlightOption (refreshConfig s0 cfg).highlightCache cnt p).lightIcon
            = some (buildUriForHighlight cfg cnt)) ∧
    exceptOk (addHighlights (refreshConfig s0 cfg) h e phs cnt) = true := by
  refine ⟨?_, ?_, ?_, ?_, ?_, ?_⟩
  · intro p hp
    have hlk := placeholderCache_lookup s0 cfg p.placeholder
    rw [if_neg hp] at hlk
    exact ⟨hlk, hlk⟩
  · intro p hp
    have hlk := placeholderCache_lookup s0 cfg p.placeholder
    rw [if_pos hp] at hlk
    exact ⟨hlk, hlk⟩
  · rw [addDecorations_eq (refreshConfig s0 cfg) h e phs cfg rfl]
    rfl
  · intro hcnt p
    have hlk := highlightCache_lookup s0 cfg cnt
    have hout : ¬ (1 ≤ cnt ∧ cnt ≤ 10) := by
      rcases hcnt with rfl | rfl <;> omega
    rw [if_neg hout] at hlk
    exact ⟨hlk, hlk⟩
  · intro h1 h2 p
    have hlk := highlightCache_lookup s0 cfg cnt
    rw [if_pos ⟨h1, h2⟩] at hlk
    exact ⟨hlk, hlk⟩
  · rw [addHighlights_eq (refreshConfig s0 cfg) h e phs cnt cfg rfl]
    rfl

/-- Witness for C3: with `sampleConfig` (characters `a`, `s`, `d`), the code
`z` gets no icon, the code `s` gets its cached glyph, highlight counts 0 and 11
get no icon, and highlight count 3 gets the cached bar. -/
theorem cache_miss_fail_soft_witness :
    (mkDecorationOption sampleState.placeholderCache ⟨0, 0, "z"⟩).darkIcon = none ∧
    (mkDecorationOption sampleState.placeholderCache samplePlaceholder).darkIcon
        = some (buildUriForPlaceholder sampleConfig "s") ∧
    (mkHighlightOption sampleState.highlightCache 0 samplePlaceholder).darkIcon = none ∧
    (mkHighlightOption sampleState.highlightCache 11 samplePlaceholder).darkIcon = none ∧
    (mkHighlightOption sampleState.highlightCache 3 samplePlaceholder).darkIcon
        = some (buildUriForHighlight sampleConfig 3) :=
  ⟨((cache_miss_fail_soft initialState sampleConfig initialHost sampleEditor [] 0).1
      ⟨0, 0, "z"⟩ (by decide)).1,
   ((cache_miss_fail_soft initialState sampleConfig initialHost sampleEditor [] 0).2.1
      samplePlaceholder (by decide)).1,
   ((cache_miss_fail_soft initialState sampleConfig initialHost sampleEditor [] 0).2.2.2.1
      (Or.inl rfl) samplePlaceholder).1,
   ((cache_miss_fail_soft initialState sampleConfig initialHost sampleEditor [] 11).2.2.2.1
      (Or.inr rfl) samplePlaceholder).1,
   ((cache_miss_fail_soft initialState sampleConfig initialHost sampleEditor [] 3).2.2.2.2.1
      (by decide) (by decide) samplePlaceholder).1⟩

/-- C4 counterexample: on a fresh decorator (no `refreshConfig` yet),
`addDecorations` does not silently no-op — it fails with a `TypeError` from
reading `placeholder` of the still-undefined config. -/
theorem add_before_refresh_cex :
    addDecorations initialState initialHost sampleEditor [samplePlaceholder]
      = .error "TypeError: cannot read properties of undefined" := rfl

/-- C4 amended: `addHighlights` with an out-of-range `highlightCount` after a
refresh silently yields unresolved bindings and no error, but `addDecorations`
or `addHighlights` called before the first `refreshConfig` raises a
`TypeError` (a property read on the absent config) instead of no-opping. -/
theorem add_before_refresh_behavior (s : DecoratorState) (h : Host) (e : Editor)
    (phs : List Placeholder) (cnt : Nat) (hc : s.config = none) :
    (∃ m, addDecorations s h e phs = .error m) ∧
    (∃ m, addHighlights s h e phs cnt = .error m) ∧
    ((cnt = 0 ∨ cnt = 11) → ∀ (s0 : DecoratorState) (cfg : Config),
        exceptOk (addHighlights (refreshConfig s0 cfg) h e phs cnt) = true ∧
        ∀ p : Placeholder,
          (mkHighlightOption (refreshConfig s0 cfg).highlightCache cnt p).darkIcon
            = none) := by
  refine ⟨⟨"TypeError: cannot read properties of undefined", ?_⟩,
          ⟨"TypeError: cannot read properties of undefined", ?_⟩, ?_⟩
  · simp [addDecorations, hc]
  · simp [addHighlights, hc]
  · intro hcnt s0 cfg
    refine ⟨?_, ?_⟩
    · rw [addHighlights_eq (refreshConfig s0 cfg) h e phs cnt cfg rfl]
      rfl
    · intro p
      have hlk := highlightCache_lookup s0 cfg cnt
      have hout : ¬ (1 ≤ cnt ∧ cnt ≤ 10) := by
        rcases hcnt with rfl | rfl <;> omega
      rw [if_neg hout] at hlk
      exact hlk

/-- Witness for the amended C4: the pre-refresh calls error out on a fresh
decorator, and an out-of-range count after a refresh still succeeds. -/
theorem add_before_refresh_behavior_witness :
    (∃ m, addDecorations initialState initialHost sampleEditor [samplePlaceholder]
        = .error m) ∧
    (∃ m, addHighlights initialState initialHost sampleEditor [samplePlaceholder] 0
        = .error m) ∧
    exceptOk (addHighlights (refreshConfig initialState sampleConfig) initialHost
        sampleEditor [samplePlaceholder] 0) = true :=
  ⟨(add_before_refresh_behavior initialState initialHost sampleEditor
      [samplePlaceholder] 0 rfl).1,
   (add_before_refresh_behavior initialState initialHost sampleEditor
      [samplePlaceholder] 0 rfl).2.1,
   ((add_before_refresh_behavior initialState initialHost sampleEditor
      [samplePlaceholder] 0 rfl).2.2 (Or.inl rfl) initialState sampleConfig).1⟩

/-- C5: `buildUriForPlaceholder` returns a data URI embedding, without
pretty-printing, an SVG whose canvas is `placeholder.width × height`, holding
a rounded rectangle (corner radii 2) filling the canvas in the configured
background color, and a text element with the configured font
family/weight/size/color at `(textPosX, textPosY)` whose content is the code
upper-cased when `upperCase` is set and lower-cased otherwise. -/
theorem buildUriForPlaceholder_spec (cfg : Config) (code : String) :
    buildUriForPlaceholder cfg code
        = "data:image/svg+xml;utf8," ++ serializeNode (placeholderSvg cfg code) ∧
    nodeName (placeholderSvg cfg code) = some "svg" ∧
    attrOf (placeholderSvg cfg code) "width" = some (toString cfg.placeholder.width) ∧
    attrOf (placeholderSvg cfg code) "height" = some (toString cfg.placeholder.height) ∧
    attrOf (placeholderSvg cfg code) "viewBox"
        = some ("0 0 " ++ toString cfg.placeholder.width ++ " "
            ++ toString cfg.placeholder.height) ∧
    (∃ rectNode textNode,
        nodeChildren (placeholderSvg cfg code) = [rectNode, textNode] ∧
        nodeName rectNode = some "rect" ∧
        attrOf rectNode "width" = some (toString cfg.placeholder.width) ∧
        attrOf rectNode "height" = some (toString cfg.placeholder.height) ∧
        attrOf rectNode "rx" = some "2" ∧
        attrOf rectNode "ry" = some "2" ∧
        attrOf rectNode "style" = some ("fill: " ++ cfg.placeholder.backgroundColor) ∧
        nodeName textNode = some "text" ∧
        attrOf textNode "font-weight" = some cfg.placeholder.fontWeight ∧
        attrOf textNode "font-family" = some cfg.placeholder.fontFamily ∧
        attrOf textNode "font-size" = some (toString cfg.placeholder.fontSize ++ "px") ∧
        attrOf textNode "fill" = some cfg.placeholder.color ∧
        attrOf textNode "x" = some (toString cfg.placeholder.textPosX) ∧
        attrOf textNode "y" = some (toString cfg.placeholder.textPosY) ∧
        nodeChildren textNode
          = [XmlNode.text
              (if cfg.placeholder.upperCase then code.toUpper else code.toLower)]) := by
  refine ⟨rfl, rfl, rfl, rfl, rfl, ⟨_, _, rfl, rfl, rfl, rfl, rfl, rfl, rfl, rfl,
    rfl, rfl, rfl, rfl, rfl, rfl, rfl⟩⟩

/-- C9: for `characterCount ≥ 1`, `buildUriForHighlight` returns a data URI
whose SVG canvas is `highlight.width * characterCount` wide and
`highlight.height` tall, with viewBox origin offset by `(offsetX, offsetY)`,
containing exactly one rounded rectangle (radii 2) filling the canvas in the
highlight background color and no text element. -/
theorem buildUriForHighlight_spec (cfg : Config) (characterCount : Nat)
    (hcc : 1 ≤ characterCount) :
    buildUriForHighlight cfg characterCount
        = "data:image/svg+xml;utf8,"
            ++ serializeNode (highlightSvg cfg characterCount) ∧
    nodeName (highlightSvg cfg characterCount) = some "svg" ∧
    attrOf (highlightSvg cfg characterCount) "width"
        = some (toString (cfg.highlight.width * characterCount)) ∧
    attrOf (highlightSvg cfg characterCount) "height"
        = some (toString cfg.highlight.height) ∧
    attrOf (highlightSvg cfg characterCount) "viewBox"
        = some (toString cfg.highlight.offsetX ++ " " ++ toString cfg.highlight.offsetY
            ++ " " ++ toString (cfg.highlight.width * characterCount) ++ " "
            ++ toString cfg.highlight.height) ∧
    (∃ rectNode, nodeChildren (highlightSvg cfg characterCount) = [rectNode] ∧
        nodeName rectNode = some "rect" ∧
        attrOf rectNode "width" = some (toString (cfg.highlight.width * characterCount)) ∧
        attrOf rectNode "height" = some (toString cfg.highlight.height) ∧
        attrOf rectNode "rx" = some "2" ∧
        attrOf rectNode "ry" = some "2" ∧
        attrOf rectNode "style" = some ("fill: " ++ cfg.highlight.backgroundColor)) ∧
    (∀ c ∈ nodeChildren (highlightSvg cfg characterCount),
        nodeName c ≠ some "text") := by
  refine ⟨rfl, rfl, rfl, rfl, rfl, ⟨_, rfl, rfl, rfl, rfl, rfl, rfl, rfl⟩, ?_⟩
  intro c hc
  have hch : nodeChildren (highlightSvg cfg characterCount)
      = [XmlNode.elem "rect"
          [("width", toString (cfg.highlight.width * characterCount)),
           ("height", toString cfg.highlight.height),
           ("rx", "2"), ("ry", "2"),
           ("style", "fill: " ++ cfg.highlight.backgroundColor)] []] := rfl
  rw [hch, List.mem_singleton] at hc
  subst hc
  intro hne
  exact absurd (Option.some.inj hne) (by decide)

/-- Witness for C9 at `characterCount = 3` with `sampleConfig` (per-character
width 6): the bar canvas is 18 wide, 14 tall, and its sole child is a rect. -/
theorem buildUriForHighlight_spec_witness :
    attrOf (highlightSvg sampleConfig 3) "width"
        = some (toString (sampleConfig.highlight.width * 3)) ∧
    attrOf (highlightSvg sampleConfig 3) "height"
        = some (toString sampleConfig.highlight.height) ∧
    (∃ rectNode, nodeChildren (highlightSvg sampleConfig 3) = [rectNode] ∧
        nodeName rectNode = some "rect" ∧
        attrOf rectNode "width" = some (toString (sampleConfig.highlight.width * 3)) ∧
        attrOf rectNode "height" = some (toString sampleConfig.highlight.height) ∧
        attrOf rectNode "rx" = some "2" ∧
        attrOf rectNode "ry" = some "2" ∧
        attrOf rectNode "style" = some ("fill: " ++ sampleConfig.highlight.backgroundColor)) :=
  ⟨(buildUriForHighlight_spec sampleConfig 3 (by decide)).2.2.1,
   (buildUriForHighlight_spec sampleConfig 3 (by decide)).2.2.2.1,
   (buildUriForHighlight_spec sampleConfig 3 (by decide)).2.2.2.2.2.1⟩

/-- C6: `dimEditor` with an absent or empty ranges list applies the dim
decoration over exactly one range, from `(0, 0)` to
`(lineCount, Number.MAX_VALUE)`; with a non-empty list it applies it over
exactly that list; either way the freshly created dim type receives exactly
one binding call. -/
theorem dimEditor_range_selection (s : DecoratorState) (h : Host) (e : Editor)
    (ranges : Option (List Range)) :
    ((ranges = none ∨ ranges = some []) →
      (dimEditor s h e ranges).2.setCalls
        = (undimEditor s h).2.setCalls
            ++ [((undimEditor s h).2.nextId,
                 .ranges [⟨0, 0, e.lineCount, numberMaxValue⟩])]) ∧
    (∀ (r : Range) (rs : List Range), ranges = some (r :: rs) →
      (dimEditor s h e ranges).2.setCalls
        = (undimEditor s h).2.setCalls
            ++ [((undimEditor s h).2.nextId, .ranges (r :: rs))]) ∧
    (dimEditor s h e ranges).1.dim = some (undimEditor s h).2.nextId := by
  refine ⟨?_, ?_, rfl⟩
  · rintro (rfl | rfl) <;> rfl
  · rintro r rs rfl
    rfl

/-- Witness for C6 on a five-line document: the dim overlay covers
`(0,0)`-`(5, Number.MAX_VALUE)` by default, and exactly `[(1,2)-(3,4)]` when
that list is passed. -/
theorem dimEditor_range_selection_witness :
    ((dimEditor sampleState initialHost sampleEditor none).2.setCalls
      = (undimEditor sampleState initialHost).2.setCalls
          ++ [((undimEditor sampleState initialHost).2.nextId,
               .ranges [⟨0, 0, sampleEditor.lineCount, numberMaxValue⟩])]) ∧
    ((dimEditor sampleState initialHost sampleEditor (some [⟨1, 2, 3, 4⟩])).2.setCalls
      = (undimEditor sampleState initialHost).2.setCalls
          ++ [((undimEditor sampleState initialHost).2.nextId,
               .ranges [⟨1, 2, 3, 4⟩])]) :=
  ⟨(dimEditor_range_selection sampleState initialHost sampleEditor none).1 (Or.inl rfl),
   (dimEditor_range_selection sampleState initialHost sampleEditor
      (some [⟨1, 2, 3, 4⟩])).2.1 ⟨1, 2, 3, 4⟩ [] rfl⟩

/-! ### Helper lemmas for handle tracking -/

theorem addDecorationsN_ok (n : Nat) (s : DecoratorState) (h : Host) (e : Editor)
    (phs : List Placeholder) (cfg : Config) (hc : s.config = some cfg) :
    ∃ s2 h2, addDecorationsN n s h e phs = .ok (s2, h2) ∧
      s2.config = some cfg ∧
      s2.decorations.length = s.decorations.length + n ∧
      s2.highlights = s.highlights ∧ s2.dim = s.dim := by
  induction n generalizing s h with
  | zero => exact ⟨s, h, rfl, hc, by simp, rfl, rfl⟩
  | succ n ih =>
    obtain ⟨s2, h2, hrun, hcfg, hlen, hhl, hdim⟩ :=
      ih { s with decorations := s.decorations ++ [h.nextId] }
         { h with nextId := h.nextId + 1,
                  created := h.created ++ [(h.nextId, afterOptsFor cfg.placeholder)],
                  setCalls := h.setCalls ++
                    [(h.nextId,
                      .opts (phs.map (mkDecorationOption s.placeholderCache)))] }
         hc
    refine ⟨s2, h2, ?_, hcfg, ?_, hhl, hdim⟩
    · rw [addDecorationsN, addDecorations_eq s h e phs cfg hc]
      exact hrun
    · rw [hlen]
      simp only [List.length_append, List.length_singleton]
      omega

theorem addHighlightsN_ok (n : Nat) (s : DecoratorState) (h : Host) (e : Editor)
    (phs : List Placeholder) (cnt : Nat) (cfg : Config) (hc : s.config = some cfg) :
    ∃ s2 h2, addHighlightsN n s h e phs cnt = .ok (s2, h2) ∧
      s2.config = some cfg ∧
      s2.highlights.length = s.highlights.length + n ∧
      s2.decorations = s.decorations ∧ s2.dim = s.dim := by
  induction n generalizing s h with
  | zero => exact ⟨s, h, rfl, hc, by simp, rfl, rfl⟩
  | succ n ih =>
    obtain ⟨s2, h2, hrun, hcfg, hlen, hdec, hdim⟩ :=
      ih { s with highlights := s.highlights ++ [h.nextId] }
         { h with nextId := h.nextId + 1,
                  created := h.created ++ [(h.nextId, afterOptsFor cfg.placeholder)],
                  setCalls := h.setCalls ++
                    [(h.nextId,
                      .opts (phs.map (mkHighlightOption s.highlightCache cnt)))] }
         hc
    refine ⟨s2, h2, ?_, hcfg, ?_, hdec, hdim⟩
    · rw [addHighlightsN, addHighlights_eq s h e phs cnt cfg hc]
      exact hrun
    · rw [hlen]
      simp only [List.length_append, List.length_singleton]
      omega

/-- The clear-then-dispose fold of the `remove*` methods, as one host update. -/
theorem foldl_clear_dispose (ids : List Nat) (h : Host) :
    ids.foldl (fun acc id => (acc.setDecorations id (.opts [])).dispose id) h
      = { h with setCalls := h.setCalls ++ ids.map (fun id => (id, .opts [])),
                 disposed := h.disposed ++ ids } := by
  induction ids generalizing h with
  | nil => simp
  | cons id rest ih =>
    rw [List.foldl_cons, ih]
    simp [Host.setDecorations, Host.dispose]

/-- C7: after `n` `addDecorations` calls, `n` more placeholder types are
tracked; one `removeDecorations` then clears and disposes each tracked type
exactly once, in order, and leaves zero tracked; the same holds for
`addHighlights`/`removeHighlights` on the independent highlight list; and
`dimEditor` disposes any previously tracked dim type before creating its
replacement, so at most one dim type (an `Option`) is ever tracked. -/
theorem handle_tracking (n : Nat) (s : DecoratorState) (h : Host) (e : Editor)
    (phs : List Placeholder) (cnt : Nat) (cfg : Config) (hc : s.config = some cfg)
    (ranges : Option (List Range)) :
    (∃ s2 h2, addDecorationsN n s h e phs = .ok (s2, h2) ∧
        s2.decorations.length = s.decorations.length + n ∧
        s2.highlights = s.highlights ∧ s2.dim = s.dim) ∧
    (∃ s2 h2, addHighlightsN n s h e phs cnt = .ok (s2, h2) ∧
        s2.highlights.length = s.highlights.length + n ∧
        s2.decorations = s.decorations ∧ s2.dim = s.dim) ∧
    ((removeDecorations s h).1.decorations = [] ∧
      (removeDecorations s h).2.disposed = h.disposed ++ s.decorations ∧
      (removeDecorations s h).2.setCalls
        = h.setCalls ++ s.decorations.map (fun id => (id, .opts []))) ∧
    ((removeHighlights s h).1.highlights = [] ∧
      (removeHighlights s h).2.disposed = h.disposed ++ s.highlights ∧
      (removeHighlights s h).2.setCalls
        = h.setCalls ++ s.highlights.map (fun id => (id, .opts []))) ∧
    ((dimEditor s h e ranges).1.dim = some (undimEditor s h).2.nextId ∧
      (∀ d, s.dim = some d →
        (dimEditor s h e ranges).2.disposed = h.disposed ++ [d]) ∧
      (s.dim = none → (dimEditor s h e ranges).2.disposed = h.disposed)) := by
  refine ⟨?_, ?_, ?_, ?_, rfl, ?_, ?_⟩
  · obtain ⟨s2, h2, hrun, _, hlen, hhl, hdim⟩ := addDecorationsN_ok n s h e phs cfg hc
    exact ⟨s2, h2, hrun, hlen, hhl, hdim⟩
  · obtain ⟨s2, h2, hrun, _, hlen, hdec, hdim⟩ := addHighlightsN_ok n s h e phs cnt cfg hc
    exact ⟨s2, h2, hrun, hlen, hdec, hdim⟩
  · refine ⟨rfl, ?_, ?_⟩ <;>
      simp [removeDecorations, foldl_clear_dispose]
  · refine ⟨rfl, ?_, ?_⟩ <;>
      simp [removeHighlights, foldl_clear_dispose]
  · intro d hd
    simp [dimEditor, undimEditor, hd, Host.createType, Host.setDecorations, Host.dispose]
  · intro hd
    simp [dimEditor, undimEditor, hd, Host.createType, Host.setDecorations]

/-- Witness for C7: two `addDecorations` calls on the sample state track two
types; `removeDecorations` on the sample state leaves zero tracked; a
`dimEditor` call on a state with no dim disposes nothing. -/
theorem handle_tracking_witness :
    (∃ s2 h2, addDecorationsN 2 sampleState initialHost sampleEditor
        [samplePlaceholder] = .ok (s2, h2) ∧
        s2.decorations.length = sampleState.decorations.length + 2 ∧
        s2.highlights = sampleState.highlights ∧ s2.dim = sampleState.dim) ∧
    (removeDecorations sampleState initialHost).1.decorations = [] ∧
    (dimEditor sampleState initialHost sampleEditor none).2.disposed
      = initialHost.disposed :=
  ⟨(handle_tracking 2 sampleState initialHost sampleEditor [samplePlaceholder] 2
      sampleConfig rfl none).1,
   (handle_tracking 2 sampleState initialHost sampleEditor [samplePlaceholder] 2
      sampleConfig rfl none).2.2.1.1,
   (handle_tracking 2 sampleState initialHost sampleEditor [samplePlaceholder] 2
      sampleConfig rfl none).2.2.2.2.2.2 rfl⟩

/-- C8: `undimEditor` is idempotent — a second consecutive call changes
nothing and after it no dim type is tracked — and `undimEditor`,
`removeDecorations` or `removeHighlights` with nothing tracked returns the
state and host unchanged (the operations are total, so no error is ever
raised). -/
theorem undim_idempotent_and_noop (s : DecoratorState) (h : Host) :
    undimEditor (undimEditor s h).1 (undimEditor s h).2 = undimEditor s h ∧
    (undimEditor s h).1.dim = none ∧
    (s.dim = none → undimEditor s h = (s, h)) ∧
    (s.decorations = [] → removeDecorations s h = (s, h)) ∧
    (s.highlights = [] → removeHighlights s h = (s, h)) := by
  refine ⟨?_, ?_, ?_, ?_, ?_⟩
  · cases hd : s.dim <;> simp [undimEditor, hd]
  · cases hd : s.dim <;> simp [undimEditor, hd]
  · intro hd
    simp [undimEditor, hd]
  · intro hd
    obtain ⟨c, pc, hcc, dim, dec, hls⟩ := s
    simp only at hd
    subst hd
    simp [removeDecorations]
  · intro hd
    obtain ⟨c, pc, hcc, dim, dec, hls⟩ := s
    simp only at hd
    subst hd
    simp [removeHighlights]

/-- Witness for C8: on the freshly refreshed sample state (nothing tracked),
`undimEditor` and the two `remove*` methods are exact no-ops. -/
theorem undim_idempotent_and_noop_witness :
    undimEditor sampleState initialHost = (sampleState, initialHost) ∧
    removeDecorations sampleState initialHost = (sampleState, initialHost) ∧
    removeHighlights sampleState initialHost = (sampleState, initialHost) :=
  ⟨(undim_idempotent_and_noop sampleState initialHost).2.2.1 rfl,
   (undim_idempotent_and_noop sampleState initialHost).2.2.2.1 rfl,
   (undim_idempotent_and_noop sampleState initialHost).2.2.2.2 rfl⟩

/-- C10: the decoration footprint (`margin`/`width`/`height` of the `after`
block) created by `addHighlights` is computed from
`config.placeholder.width/height` — exactly the `addDecorations` footprint —
independent of `highlightCount` and of the `config.highlight` sub-record, even
though the bound image's own canvas is sized from `config.highlight`. -/
theorem highlight_footprint_uses_placeholder_dims
    (s1 s2 : DecoratorState) (h1 h2 : Host) (e : Editor)
    (phs1 phs2 : List Placeholder) (cnt1 cnt2 : Nat) (cfg1 cfg2 : Config)
    (hc1 : s1.config = some cfg1) (hc2 : s2.config = some cfg2)
    (hp : cfg1.placeholder = cfg2.placeholder) :
    (∃ r1, addHighlights s1 h1 e phs1 cnt1 = .ok r1 ∧
        r1.2.created = h1.created ++ [(h1.nextId, afterOptsFor cfg1.placeholder)]) ∧
    (∃ r2, addHighlights s2 h2 e phs2 cnt2 = .ok r2 ∧
        r2.2.created = h2.created ++ [(h2.nextId, afterOptsFor cfg2.placeholder)]) ∧
    (∃ r3, addDecorations s1 h1 e phs1 = .ok r3 ∧
        r3.2.created = h1.created ++ [(h1.nextId, afterOptsFor cfg1.placeholder)]) ∧
    afterOptsFor cfg1.placeholder = afterOptsFor cfg2.placeholder ∧
    afterOptsFor cfg1.placeholder
      = .after { margin := "0 0 0 " ++ toString (-(cfg1.placeholder.width : Int)) ++ "px",
                 height := toString cfg1.placeholder.height ++ "px",
                 width := toString cfg1.placeholder.width ++ "px" } ∧
    attrOf (highlightSvg cfg1 cnt1) "width"
      = some (toString (cfg1.highlight.width * cnt1)) := by
  refine ⟨⟨_, addHighlights_eq s1 h1 e phs1 cnt1 cfg1 hc1, rfl⟩,
          ⟨_, addHighlights_eq s2 h2 e phs2 cnt2 cfg2 hc2, rfl⟩,
          ⟨_, addDecorations_eq s1 h1 e phs1 cfg1 hc1, rfl⟩, ?_, rfl, rfl⟩
  rw [hp]

/-- Witness for C10: `sampleConfig` and `sampleConfig2` share the placeholder
sub-record but differ in the highlight sub-record; the created footprints of
`addHighlights` under counts 1 and 7 coincide. -/
theorem highlight_footprint_witness :
    afterOptsFor sampleConfig.placeholder = afterOptsFor sampleConfig2.placeholder ∧
    (∃ r1, addHighlights sampleState initialHost sampleEditor [samplePlaceholder] 1
        = .ok r1 ∧
        r1.2.created = initialHost.created
          ++ [(initialHost.nextId, afterOptsFor sampleConfig.placeholder)]) :=
  ⟨(highlight_footprint_uses_placeholder_dims sampleState
      (refreshConfig initialState sampleConfig2) initialHost initialHost sampleEditor
      [samplePlaceholder] [samplePlaceholder] 1 7 sampleConfig sampleConfig2
      rfl rfl rfl).2.2.2.1,
   (highlight_footprint_uses_placeholder_dims sampleState
      (refreshConfig initialState sampleConfig2) initialHost initialHost sampleEditor
      [samplePlaceholder] [samplePlaceholder] 1 7 sampleConfig sampleConfig2
      rfl rfl rfl).1⟩

end CodeAceJumper
